import Mathlib

/-!
Verification of the `promptseven/scrape` server (`src/app.js`) against its
natural-language specification.

The JavaScript source is shallowly embedded: each asynchronous page/browser
interaction is modelled by an environment function giving the outcome of that
interaction (as a function of time or of the attempt number), and each
source function becomes a total Lean function over that environment.  Time is
a `Nat` clock: the only operations that advance the clock are the explicit
`setTimeout` sleeps of the source (the poll sleeps of the stability loop);
remote evaluations are modelled as instantaneous.
-/

namespace Scrape

/-! ## Convergence detector (`scrollToBottomAndWaitForStability`, app.js:116-212)

The environment for one detection run:
* `closed t`       — what `page.isClosed()` reports at time `t`;
* `eval t`         — the node-count `page.evaluate` at time `t`:
                     `some n` means it resolves to `n`, `none` means it throws
                     (frame detached / page closed);
* `scrollThrows t` — whether the scroll `page.evaluate` issued at time `t`
                     throws.
-/
structure DetectEnv where
  closed : Nat → Bool
  eval : Nat → Option Nat
  scrollThrows : Nat → Bool

/-- app.js:127-141, the `getCount` helper: returns the node count, and maps
"page closed" and any thrown evaluation to `0`. -/
def getCount (env : DetectEnv) (t : Nat) : Nat :=
  if env.closed t then 0
  else
    match env.eval t with
    | some n => n
    | none => 0

/-- Outcome of the observation loop (app.js:186-205), tagged with the time at
which the loop returned: `stable` is the `return true` at line 199,
`closedDuring` the `return false` at line 193, `timedOut` the fall-through
to `break` when `Date.now() < endTime` fails. -/
inductive ObserveRes where
  | stable (r : Nat)
  | closedDuring (r : Nat)
  | timedOut (r : Nat)
deriving DecidableEq, Repr

/-- app.js:186-205, the observation loop `while (Date.now() < endTime)`.

Each iteration sleeps `checkIntervalMs`, so the clock advances by
`checkIntervalMs` per iteration.  The `fuel` argument bounds the recursion;
the top-level call passes `fuel = timeoutMs`, which is exact when
`1 ≤ checkIntervalMs`: the clock gains at least `1` per iteration, so the
invariant `endTime - t ≤ fuel` holds throughout and the `fuel = 0` branch
(which answers `timedOut`, the same answer the loop guard would give) is
reached only when `t` has already passed `endTime`. -/
def observe (env : DetectEnv) (endTime idleMs checkIntervalMs : Nat) :
    Nat → Nat → Option Nat → Nat → ObserveRes
  | 0, _, _, t => .timedOut t
  | fuel + 1, lastCount, stableStart, t =>
    if t < endTime then
      -- `await new Promise((r) => setTimeout(r, checkIntervalMs))`
      if env.closed (t + checkIntervalMs) then .closedDuring (t + checkIntervalMs)
      else
        -- `const cur = await getCount()`
        if getCount env (t + checkIntervalMs) = lastCount then
          -- `if (!stableStart) stableStart = Date.now()`
          match stableStart with
          | none =>
            if idleMs ≤ (t + checkIntervalMs) - (t + checkIntervalMs) then
              .stable (t + checkIntervalMs)
            else
              observe env endTime idleMs checkIntervalMs fuel lastCount
                (some (t + checkIntervalMs)) (t + checkIntervalMs)
          | some s =>
            if idleMs ≤ (t + checkIntervalMs) - s then .stable (t + checkIntervalMs)
            else
              observe env endTime idleMs checkIntervalMs fuel lastCount
                (some s) (t + checkIntervalMs)
        else
          -- `lastCount = cur; stableStart = null`
          observe env endTime idleMs checkIntervalMs fuel
            (getCount env (t + checkIntervalMs)) none (t + checkIntervalMs)
    else .timedOut t

/-- Result of one detection run: the boolean the function returns, plus how
many scroll commands were successfully issued (for auditing the outer
`for` loop of app.js:145-208). -/
structure DetectRes where
  stable : Bool
  scrolls : Nat
deriving DecidableEq, Repr

/-- app.js:116-212, `scrollToBottomAndWaitForStability`, with the run starting
at time `t0`.

The outer `for` loop (app.js:145-208) is transcribed without recursion: its
body unconditionally ends in `return true` (line 199), `return false`
(line 193), `break` (lines 152, 158, 182 — page closed / scroll threw) or the
trailing `break` of line 207 that follows the observation loop, so the body
runs at most once and `attempt++` is never reached.  The two `page.isClosed()`
checks of lines 151 and 158 happen with no intervening sleep and are modelled
as one check at `t0`. -/
def runDetect (env : DetectEnv) (maxScrolls timeoutMs idleMs checkIntervalMs t0 : Nat) :
    DetectRes :=
  -- `const endTime = Date.now() + timeoutMs`; `let lastCount = await getCount()`
  if 0 < maxScrolls ∧ t0 < t0 + timeoutMs then
    if env.closed t0 then ⟨false, 0⟩          -- line 151/158: break, then `return false`
    else if env.scrollThrows t0 then ⟨false, 0⟩ -- line 176: catch, break, `return false`
    else
      match observe env (t0 + timeoutMs) idleMs checkIntervalMs timeoutMs
          (getCount env t0) none t0 with
      | .stable _ => ⟨true, 1⟩
      | .closedDuring _ => ⟨false, 1⟩
      | .timedOut _ => ⟨false, 1⟩             -- line 207: break, `return false`
  else ⟨false, 0⟩

/-- The boolean the source function returns. -/
def scrollToBottomAndWaitForStability (env : DetectEnv)
    (maxScrolls timeoutMs idleMs checkIntervalMs t0 : Nat) : Bool :=
  (runDetect env maxScrolls timeoutMs idleMs checkIntervalMs t0).stable

/-- The growth-metric reading at the `i`-th poll of a run that starts at `t0`
with poll cadence `ci` (`i = 0` is the initial `lastCount` measurement of
app.js:143). -/
def reading (env : DetectEnv) (t0 ci i : Nat) : Nat :=
  getCount env (t0 + i * ci)

/-! ## Session connector (`connectWithRetry`, app.js:22-55)

The environment maps the attempt number (1-based) to the outcome of that
attempt's `puppeteer.connect` call plus liveness check. -/

inductive ConnOutcome where
  | throws (msg : String)   -- `puppeteer.connect` rejected with this message
  | notReady                -- connected but `browser.isConnected()` is false
  | ready                   -- connected and live
deriving DecidableEq

/-- The error message an attempt produces, `none` for a successful attempt.
The `notReady` outcome disconnects the half-open browser and throws
`'Browser connected but not ready'` (app.js:38-39). -/
def connErrMsg : ConnOutcome → Option String
  | .throws m => some m
  | .notReady => some "Browser connected but not ready"
  | .ready => none

/-- Result of `connectWithRetry`: either success at a given attempt, or the
thrown failure carrying the last per-attempt error message (`none` models the
`TypeError` of reading `lastError.message` when no attempt ever ran, i.e.
`maxRetries = 0`).  `delays` lists the backoff waits actually slept, in
order. -/
inductive ConnResult where
  | ok (attempt : Nat) (delays : List Nat)
  | error (lastErr : Option String) (delays : List Nat)
deriving DecidableEq

/-- The backoff before the retry that follows failed attempt `attempt`:
`baseDelay * Math.pow(2, attempt - 1)` (app.js:46). -/
def backoffDelay (baseDelay attempt : Nat) : Nat :=
  baseDelay * 2 ^ (attempt - 1)

/-- The `for (let attempt = 1; attempt <= maxRetries; attempt++)` loop of
app.js:24-51.  `remaining` is the structural fuel `maxRetries - attempt + 1`;
it reaches `0` at entry only when `maxRetries = 0`, in which case the loop
never runs and the final `throw` reads `lastError.message` off `undefined`. -/
def connectLoop (env : Nat → ConnOutcome) (maxRetries baseDelay : Nat) :
    Nat → Nat → Option String → List Nat → ConnResult
  | 0, _, lastErr, acc => .error lastErr acc
  | remaining + 1, attempt, _lastErr, acc =>
    match connErrMsg (env attempt) with
    | none => .ok attempt acc
    | some m =>
      if attempt < maxRetries then
        connectLoop env maxRetries baseDelay remaining (attempt + 1) (some m)
          (acc ++ [backoffDelay baseDelay attempt])
      else .error (some m) acc

/-- app.js:22-55, `connectWithRetry(maxRetries = 3, baseDelay = 1000)`. -/
def connectWithRetry (env : Nat → ConnOutcome) (maxRetries baseDelay : Nat) : ConnResult :=
  connectLoop env maxRetries baseDelay maxRetries 1 none []

/-- The message of the error thrown when every attempt failed (app.js:52-54). -/
def connectFailMessage (maxRetries : Nat) (lastErr : String) : String :=
  "Failed to connect after " ++ toString maxRetries ++ " attempts: " ++ lastErr

/-! ## Content extractor (`extractPageContent`, app.js:58-110)

Per attempt number (1-based) the environment gives what `page.isClosed()`
reports at the top of the attempt, and the outcomes of the two retrieval
methods: `page.content()` and the `document.documentElement.outerHTML`
evaluation.  A retrieval either throws or resolves to an optional string
(`none` modelling a JavaScript `undefined`/`null` result). -/

inductive EvalTry where
  | throws
  | ret (v : Option String)
deriving DecidableEq

structure ExtractEnv where
  closed : Nat → Bool
  content : Nat → EvalTry
  outerHTML : Nat → EvalTry

/-- The plausibility test `html && html.length > 100` of app.js:68/79:
the value must be present, truthy (non-empty) and longer than 100
characters. -/
def longEnough : Option String → Bool
  | none => false
  | some s => !s.isEmpty && decide (100 < s.length)

/-- The sentinel returned when the page is closed before extraction
(app.js:62). -/
def pageClosedHtml : String :=
  "<html><body><!-- Page closed before content extraction --></body></html>"

/-- The sentinel returned when every attempt failed (app.js:106). -/
def extractionFailedHtml : String :=
  "<html><body><!-- Content extraction failed after retries --></body></html>"

/-- The `for (let attempt = 1; attempt <= maxRetries; attempt++)` loop of
app.js:59-109.  `remaining` is the structural fuel `maxRetries - attempt + 1`.
The three retry-or-fallback exits all transcribe the single `catch` block of
app.js:85-108: if `attempt < maxRetries` sleep and go to the next attempt,
else return the failure sentinel.  A `none` result models the `undefined`
that the JavaScript function returns when the loop never runs
(`maxRetries = 0`). -/
def extractLoop (env : ExtractEnv) (maxRetries : Nat) : Nat → Nat → Option String
  | 0, _ => none
  | remaining + 1, attempt =>
    if env.closed attempt then some pageClosedHtml
    else
      match env.content attempt with
      | .ret v =>
        if longEnough v then v
        else
          match env.outerHTML attempt with
          | .ret w =>
            if longEnough w then w
            else if attempt < maxRetries then extractLoop env maxRetries remaining (attempt + 1)
            else some extractionFailedHtml
          | .throws =>
            if attempt < maxRetries then extractLoop env maxRetries remaining (attempt + 1)
            else some extractionFailedHtml
      | .throws =>
        if attempt < maxRetries then extractLoop env maxRetries remaining (attempt + 1)
        else some extractionFailedHtml

/-- app.js:58-110, `extractPageContent(page, maxRetries = 3)`. -/
def extractPageContent (env : ExtractEnv) (maxRetries : Nat) : Option String :=
  extractLoop env maxRetries maxRetries 1

/-- One attempt "fails to produce a credible result": the page is open but
neither method returns a credible string (a thrown `page.content()` skips
the secondary method inside the same attempt, exactly as the `try` block
does). -/
def attemptFails (env : ExtractEnv) (a : Nat) : Bool :=
  !env.closed a &&
    (match env.content a with
     | .throws => true
     | .ret v =>
       !longEnough v &&
         (match env.outerHTML a with
          | .throws => true
          | .ret w => !longEnough w))

/-! ## Scroll target locator (`getScrollTargetSelector`, app.js:216-243) -/

structure LocEnv where
  closed : Bool       -- `page.isClosed()` at entry
  evalThrows : Bool   -- the outer `page.evaluate` call rejects (frame detached)
  innerThrows : Bool  -- the in-page callback's `try` block throws

/-- The marker selector `'[data-scrape-scroll="1"]'`. -/
def scrapeScrollMarker : String := "[data-scrape-scroll=\"1\"]"

/-- app.js:216-243, `getScrollTargetSelector(page)`.  The in-page callback
returns the marker both from its `try` branch (after marking the best
element) and from its `catch` branch; the outer guard and `catch` also return
the marker. -/
def getScrollTargetSelector (env : LocEnv) : String :=
  if env.closed then scrapeScrollMarker
  else if env.evalThrows then scrapeScrollMarker
  else if env.innerThrows then scrapeScrollMarker
  else scrapeScrollMarker

/-! ## Defaults and derived settings (app.js:9-15, app.js:291-294) -/

structure ScrapeDefaults where
  maxScrolls : Nat
  scrollDelayMs : Nat
  headless : Bool
  viewportWidth : Nat
  viewportHeight : Nat
  timeoutMs : Nat
deriving DecidableEq

/-- app.js:9-15. -/
def DEFAULTS : ScrapeDefaults :=
  { maxScrolls := 40, scrollDelayMs := 5000, headless := true,
    viewportWidth := 1200, viewportHeight := 900, timeoutMs := 1200000 }

/-- app.js:291-293: `input.stabilityIdleMs || Math.max(500, Math.min(2000,
scrollDelayMs || 800))`.  JavaScript `||` treats `0` and a missing field
alike, hence the explicit zero tests. -/
def effStabilityIdleMs (stabilityIdleMs : Option Nat) (scrollDelayMs : Nat) : Nat :=
  match stabilityIdleMs with
  | some v => if v = 0 then max 500 (min 2000 (if scrollDelayMs = 0 then 800 else scrollDelayMs)) else v
  | none => max 500 (min 2000 (if scrollDelayMs = 0 then 800 else scrollDelayMs))

/-- app.js:294: `input.checkIntervalMs || 500`. -/
def effCheckIntervalMs : Option Nat → Nat
  | some v => if v = 0 then 500 else v
  | none => 500

/-! ## Job orchestrator (the `POST /scrape` handler, app.js:248-385)

`StepsEnv` gives the outcome of every fallible step between session
acquisition and extraction; a step field of type `Option String` is `none`
when the step succeeds and `some m` when it throws an error with message `m`.
`CleanupEnv` describes the state the resources report when the (shared
success-path/error-path) cleanup code runs, and whether the release calls
themselves throw. -/

structure StepsEnv where
  connEnv : Nat → ConnOutcome        -- drives `connectWithRetry()` (line 260)
  connectedAfterConnect : Bool       -- `browser.isConnected()`, line 263
  newPageErr : Option String         -- `browser.newPage()`, line 267
  setViewportErr : Option String     -- line 268
  setUserAgentErr : Option String    -- line 271
  gotoErr : Option String            -- `page.goto(...)`, line 281
  connectedBeforeLocate : Bool       -- `browser.isConnected()`, line 284
  locEnv : LocEnv                    -- `getScrollTargetSelector`, line 287
  connectedBeforeScroll : Bool       -- `browser.isConnected()`, line 297
  detectEnv : DetectEnv              -- `scrollToBottomAndWaitForStability`, line 301
  extractEnv : ExtractEnv            -- `extractPageContent`, line 328

structure CleanupEnv where
  pageClosedAtCleanup : Bool         -- `page.isClosed()` in the cleanup guard
  pageCloseFails : Bool              -- `page.close()` throws
  connectedAtCleanup : Bool          -- `browser.isConnected()` in the cleanup guard
  disconnectFails : Bool             -- `browser.disconnect()` throws
deriving DecidableEq

/-- The request body fields the handler reads, with `DEFAULTS` already merged
for the always-defaulted ones (line 250); the two tuning fields the code
reads with `||` keep their possibly-absent form. -/
structure JobInput where
  urlPresent : Bool
  maxScrolls : Nat
  scrollDelayMs : Nat
  timeoutMs : Nat
  stabilityIdleMs : Option Nat
  checkIntervalMs : Option Nat

/-- The three response shapes of the handler: the 400 of line 254, the JSON
success of line 349, the 500 of line 383. -/
inductive Resp where
  | badRequest
  | ok (html : Option String) (stable : Bool)
  | serverError (msg : String)
deriving DecidableEq

/-- Resource-event audit of one request: whether the job held an acquired
session, whether a page was ever opened, and how many `page.close()` /
`browser.disconnect()` calls were made; `cleanupFailures` counts release
calls that threw (each is caught and only logged, app.js:331-346 and
367-381). -/
structure JobCounts where
  acquires : Nat
  pageOpened : Bool
  pageCloseCalls : Nat
  disconnectCalls : Nat
  cleanupFailures : Nat
deriving DecidableEq

/-- The steps of the `try` block between acquisition and response assembly
(app.js:263-328): the response they produce, plus whether `page` was assigned
by the time the block ended (which the cleanup guards test).  Thrown step
errors surface as the 500 response of the `catch` block with the error's
message. -/
def runJobBody (s : StepsEnv) (inp : JobInput) : Resp × Bool :=
  if ¬s.connectedAfterConnect then
    (.serverError "Browser connection lost immediately after connect", false)
  else
    match s.newPageErr with
    | some m => (.serverError m, false)
    | none =>
      match s.setViewportErr with
      | some m => (.serverError m, true)
      | none =>
        match s.setUserAgentErr with
        | some m => (.serverError m, true)
        | none =>
          match s.gotoErr with
          | some m => (.serverError m, true)
          | none =>
            if ¬s.connectedBeforeLocate then
              (.serverError "Browser connection lost before scroll detection", true)
            else
              -- `getScrollTargetSelector` never throws (see C8)
              if ¬s.connectedBeforeScroll then
                (.serverError "Browser connection lost before scrolling", true)
              else
                -- marker removal (line 311-316) and the settle delay are
                -- swallowed / infallible; extraction uses maxRetries = 3
                (.ok (extractPageContent s.extractEnv 3)
                  (scrollToBottomAndWaitForStability s.detectEnv inp.maxScrolls
                    inp.timeoutMs
                    (effStabilityIdleMs inp.stabilityIdleMs inp.scrollDelayMs)
                    (effCheckIntervalMs inp.checkIntervalMs) 0), true)

/-- app.js:248-385, the whole `POST /scrape` handler.  The success path
(lines 330-346) and the error path (lines 366-381) run the same guarded
cleanup, transcribed once: `page.close()` is called iff a page was opened and
`!page.isClosed()`; `browser.disconnect()` is called iff
`browser.isConnected()`; a throwing release call is caught and counted in
`cleanupFailures`. -/
def runScrape (s : StepsEnv) (c : CleanupEnv) (inp : JobInput) : Resp × JobCounts :=
  if ¬inp.urlPresent then (.badRequest, ⟨0, false, 0, 0, 0⟩)
  else
    match connectWithRetry s.connEnv 3 1000 with
    | .error lastErr _ =>
      -- `browser` and `page` are both undefined in the catch block
      (.serverError (connectFailMessage 3 (lastErr.getD "")), ⟨0, false, 0, 0, 0⟩)
    | .ok _ _ =>
      let body := runJobBody s inp
      let closeCall := body.2 && !c.pageClosedAtCleanup
      let discCall := c.connectedAtCleanup
      (body.1,
        { acquires := 1
          pageOpened := body.2
          pageCloseCalls := if closeCall then 1 else 0
          disconnectCalls := if discCall then 1 else 0
          cleanupFailures :=
            (if closeCall && c.pageCloseFails then 1 else 0) +
            (if discCall && c.disconnectFails then 1 else 0) })

/-! ## Concrete environments used to evaluate the model on explicit inputs -/

/-- A healthy page whose metric grows at polls 1-3 and then stays at `3`. -/
def stabEnv : DetectEnv := ⟨fun _ => false, fun t => some (min t 3), fun _ => false⟩

/-- A healthy page whose metric grows at every poll (never stabilizes). -/
def growEnv : DetectEnv := ⟨fun _ => false, fun t => some t, fun _ => false⟩

/-- A page that never reports closed but whose node-count evaluation always
throws, so every `getCount` is the sentinel `0`. -/
def allFailEnv : DetectEnv := ⟨fun _ => false, fun _ => none, fun _ => false⟩

/-- A page that reports closed at every time. -/
def closedEnv : DetectEnv := ⟨fun _ => true, fun t => some t, fun _ => false⟩

/-- A 101-character string: the smallest length that passes the
`length > 100` plausibility check. -/
def longStr : String := String.mk (List.replicate 101 'a')

/-- Extraction where the primary method returns an implausibly short string
and the secondary method returns a credible one, at every attempt. -/
def extFallbackEnv : ExtractEnv :=
  ⟨fun _ => false, fun _ => .ret (some "short"), fun _ => .ret (some longStr)⟩

/-- Extraction where the page is open but both methods always throw. -/
def extAllFailEnv : ExtractEnv := ⟨fun _ => false, fun _ => .throws, fun _ => .throws⟩

/-- Extraction against a page that reports closed. -/
def extClosedEnv : ExtractEnv := ⟨fun _ => true, fun _ => .throws, fun _ => .throws⟩

/-- Connection attempts: the first two are refused, the third succeeds. -/
def connEnvW : Nat → ConnOutcome :=
  fun k => if k < 3 then .throws ("refused " ++ toString k) else .ready

/-- Connection attempts that all fail. -/
def connEnvFail : Nat → ConnOutcome := fun k => .throws ("refused " ++ toString k)

/-- A job in which every step succeeds: the session connects on the first
attempt, navigation works, the metric reads `0` at every poll (so the page
stabilizes), and extraction falls back to its secondary method. -/
def stepsOkEnv : StepsEnv :=
  { connEnv := fun _ => .ready, connectedAfterConnect := true,
    newPageErr := none, setViewportErr := none, setUserAgentErr := none,
    gotoErr := none, connectedBeforeLocate := true,
    locEnv := ⟨false, false, false⟩, connectedBeforeScroll := true,
    detectEnv := allFailEnv, extractEnv := extFallbackEnv }

/-- Cleanup state in which the browser already reports disconnected (and the
page already reports closed is false, so the page is still closeable). -/
def cleanupGone : CleanupEnv := ⟨false, false, false, false⟩

/-- Cleanup state in which both resources still report live. -/
def cleanupLive : CleanupEnv := ⟨false, false, true, false⟩

/-- A small request: url present, one scroll, 10ms budget, 3ms idle window,
1ms poll cadence. -/
def inpW : JobInput :=
  { urlPresent := true, maxScrolls := 1, scrollDelayMs := 5000,
    timeoutMs := 10, stabilityIdleMs := some 3, checkIntervalMs := some 1 }

/-! ## Specification predicates

Named propositions packaging the statements of the longer claims, so the
claim theorems and their witnesses can share them. -/

/-- `[js..ks]` is a poll window in which the metric is unchanged at every
poll and whose continuous duration reaches `idle`. -/
def stableWindow (env : DetectEnv) (t0 ci idle js ks : Nat) : Prop :=
  1 ≤ js ∧ js ≤ ks ∧ idle ≤ (ks - js) * ci ∧
  ∀ m, js ≤ m → m ≤ ks → reading env t0 ci m = reading env t0 ci (m - 1)

/-- Soundness half of C2: a `true` answer exhibits a full idle window of
unchanged polls, and the answer time is at least `idle` after every changed
poll. -/
def detectSound (env : DetectEnv) (ms tm idle ci t0 : Nat) : Prop :=
  scrollToBottomAndWaitForStability env ms tm idle ci t0 = true →
  ∃ js ks, stableWindow env t0 ci idle js ks ∧
    observe env (t0 + tm) idle ci tm (getCount env t0) none t0 = .stable (t0 + ks * ci) ∧
    ∀ m, 1 ≤ m → m ≤ ks → reading env t0 ci m ≠ reading env t0 ci (m - 1) →
      t0 + m * ci + idle ≤ t0 + ks * ci

/-- Completeness half of C2: on a healthy page, any full idle window whose
polls fit inside the overall deadline makes the detector answer `true`. -/
def detectComplete (env : DetectEnv) (ms tm idle ci t0 : Nat) : Prop :=
  (∀ u, env.closed u = false) → env.scrollThrows t0 = false → 1 ≤ ms →
  ∀ js ks, stableWindow env t0 ci idle js ks → (ks - 1) * ci < tm →
  scrollToBottomAndWaitForStability env ms tm idle ci t0 = true

/-- The `.ok` half of C7: success at attempt `a` means attempts `1..a-1`
failed, `a` is within budget, and exactly the backoffs
`baseDelay * 2 ^ (k-1)` for `k = 1..a-1` were slept, in order. -/
def connOkSpec (env : Nat → ConnOutcome) (mr bd : Nat) : Prop :=
  ∀ a ds, connectWithRetry env mr bd = .ok a ds →
    1 ≤ a ∧ a ≤ mr ∧ connErrMsg (env a) = none ∧
    (∀ k, 1 ≤ k → k < a → connErrMsg (env k) ≠ none) ∧
    ds = (List.range (a - 1)).map (fun i => bd * 2 ^ i)

/-- The all-fail half of C7: the thrown failure carries the last attempt's
error message, and backoffs were slept after every failed attempt except the
final one. -/
def connFailSpec (env : Nat → ConnOutcome) (mr bd : Nat) : Prop :=
  (∀ k, 1 ≤ k → k ≤ mr → connErrMsg (env k) ≠ none) →
  connectWithRetry env mr bd =
    .error (connErrMsg (env mr)) ((List.range (mr - 1)).map (fun i => bd * 2 ^ i))

/-- C5's contract: extraction always yields a string; a closed page yields the
"page closed" sentinel with no retry; attempts that all fail yield the
"extraction failed" sentinel. -/
def extractTotalSpec (env : ExtractEnv) (mr : Nat) : Prop :=
  (extractPageContent env mr).isSome = true ∧
  (env.closed 1 = true → extractPageContent env mr = some pageClosedHtml) ∧
  ((∀ a, 1 ≤ a → a ≤ mr → attemptFails env a = true) →
    extractPageContent env mr = some extractionFailedHtml)

/-- The amended C1: per job the session is acquired once; each release call
happens at most once, and exactly once when the resource still reports live
at cleanup; and the response is independent of the cleanup environment
(release failures are caught, never the job's outcome). -/
def jobCleanupSpec (s : StepsEnv) (c : CleanupEnv) (inp : JobInput) : Prop :=
  (runScrape s c inp).2.acquires = 1 ∧
  (runScrape s c inp).2.pageCloseCalls ≤ 1 ∧
  (runScrape s c inp).2.disconnectCalls ≤ 1 ∧
  (c.connectedAtCleanup = true → (runScrape s c inp).2.disconnectCalls = 1) ∧
  ((runScrape s c inp).2.pageOpened = true → c.pageClosedAtCleanup = false →
    (runScrape s c inp).2.pageCloseCalls = 1) ∧
  (∀ c' : CleanupEnv, (runScrape s c' inp).1 = (runScrape s c inp).1)

end Scrape

namespace Scrape

/-! ## Claim theorems -/

/-- C8: `getScrollTargetSelector` never throws: for every page state —
including a closed page and any failure of the in-page evaluation — it
returns a selector string, namely the default root marker
`'[data-scrape-scroll="1"]'` (which is also what the successful in-page
computation returns). -/
theorem C8_locator_never_throws :
    ∀ env : LocEnv, getScrollTargetSelector env = scrapeScrollMarker := by
  intro env
  simp [getScrollTargetSelector]

/-- C10: with `stabilityIdleMs` absent from the request, the effective idle
duration is `max(500, min(2000, scrollDelayMs || 800))`, hence always in
`[500, 2000]`; with the default `scrollDelayMs = 5000` it is `2000`. -/
theorem C10_idle_derivation :
    ∀ sd : Nat,
      effStabilityIdleMs none sd =
        max 500 (min 2000 (if sd = 0 then 800 else sd)) ∧
      500 ≤ effStabilityIdleMs none sd ∧
      effStabilityIdleMs none sd ≤ 2000 ∧
      DEFAULTS.scrollDelayMs = 5000 ∧
      effStabilityIdleMs none DEFAULTS.scrollDelayMs = 2000 := by
  intro sd
  refine ⟨rfl, ?_, ?_, rfl, by decide⟩
  · exact Nat.le_max_left _ _
  · exact Nat.max_le.mpr ⟨by norm_num, Nat.min_le_left _ _⟩

/-- C3 (failing-input evaluation): with `maxScrolls = 3`, a 12ms budget and a
metric that grows at every poll, the detector issues exactly ONE scroll
command and returns `false` only when the overall deadline elapses: the
observation loop's only non-returning exit is the overall deadline, followed
by an unconditional `break`, so the attempt counter can never advance and no
second scroll is ever issued, contrary to the function's own header comment
"Scroll to bottom repeatedly (up to maxScrolls)". -/
theorem C3_single_scroll_behavior :
    runDetect growEnv 3 12 4 1 0 = ⟨false, 1⟩ ∧
    (runDetect growEnv 3 12 4 1 0).scrolls < 3 ∧
    observe growEnv (0 + 12) 4 1 12 (getCount growEnv 0) none 0 = .timedOut 12 := by
  exact ⟨by decide, by decide, by decide⟩

/-- C9: `getCount` maps a closed page and a thrown evaluation to the sentinel
reading `0`, and those sentinel readings participate in the stability
comparison: in a run where every metric evaluation throws (page never
reporting closed), the constant `0` readings count as "unchanged" and the
detector returns `true` without one successful measurement. -/
theorem C9_failed_metric_zero :
    ∀ (env : DetectEnv) (t : Nat),
      (env.closed t = true → getCount env t = 0) ∧
      (env.eval t = none → getCount env t = 0) ∧
      scrollToBottomAndWaitForStability allFailEnv 1 10 3 1 0 = true := by
  intro env t
  refine ⟨fun h => ?_, fun h => ?_, by decide⟩
  · simp [getCount, h]
  · by_cases hc : env.closed t <;> simp [getCount, hc, h]

theorem C9_failed_metric_zero_witness :
    closedEnv.closed 2 = true ∧ getCount closedEnv 2 = 0 :=
  ⟨rfl, (C9_failed_metric_zero closedEnv 2).1 rfl⟩

/-- C6: within one extraction attempt, a primary result that is absent or not
longer than 100 characters combined with a credible secondary result makes
extraction return the secondary result. -/
theorem C6_extract_secondary_fallback :
    ∀ (env : ExtractEnv) (mr : Nat) (v : Option String) (w : String),
      1 ≤ mr → env.closed 1 = false → env.content 1 = .ret v →
      longEnough v = false → env.outerHTML 1 = .ret (some w) →
      longEnough (some w) = true →
      extractPageContent env mr = some w := by
  intro env mr v w hmr hcl hco hpv hou hpw
  obtain ⟨r, rfl⟩ : ∃ r, mr = r + 1 := ⟨mr - 1, by omega⟩
  unfold extractPageContent
  simp [extractLoop, hcl, hco, hpv, hou, hpw]

theorem C6_extract_secondary_fallback_witness :
    1 ≤ 3 ∧ extFallbackEnv.closed 1 = false ∧
    extFallbackEnv.content 1 = .ret (some "short") ∧
    longEnough (some "short") = false ∧
    extFallbackEnv.outerHTML 1 = .ret (some longStr) ∧
    longEnough (some longStr) = true ∧
    extractPageContent extFallbackEnv 3 = some longStr :=
  ⟨by decide, rfl, rfl, by decide, rfl, by decide,
    C6_extract_secondary_fallback extFallbackEnv 3 (some "short") longStr
      (by decide) rfl rfl (by decide) rfl (by decide)⟩

end Scrape

namespace Scrape

/-- Helper for C5: whenever at least one attempt remains, the extraction loop
produces a string (`remaining` tracks `maxRetries - attempt + 1`). -/
theorem extractLoop_isSome (env : ExtractEnv) (mr : Nat) :
    ∀ r a, a + r = mr + 1 → 1 ≤ r → (extractLoop env mr r a).isSome = true := by
  intro r
  induction r with
  | zero => intro a _ h1; exact absurd h1 (by omega)
  | succ r ih =>
    intro a hsum _
    by_cases hcl : env.closed a
    · simp [extractLoop, hcl]
    · rcases hco : env.content a with _ | v
      · by_cases hlt : a < mr
        · simpa [extractLoop, hcl, hco, hlt] using ih (a + 1) (by omega) (by omega)
        · simp [extractLoop, hcl, hco, hlt]
      · by_cases hp : longEnough v
        · rcases v with _ | s
          · simp [longEnough] at hp
          · simp [extractLoop, hcl, hco, hp]
        · rcases hou : env.outerHTML a with _ | w
          · by_cases hlt : a < mr
            · simpa [extractLoop, hcl, hco, hp, hou, hlt] using ih (a + 1) (by omega) (by omega)
            · simp [extractLoop, hcl, hco, hp, hou, hlt]
          · by_cases hw : longEnough w
            · rcases w with _ | s
              · simp [longEnough] at hw
              · simp [extractLoop, hcl, hco, hp, hou, hw]
            · by_cases hlt : a < mr
              · simpa [extractLoop, hcl, hco, hp, hou, hw, hlt] using
                  ih (a + 1) (by omega) (by omega)
              · simp [extractLoop, hcl, hco, hp, hou, hw, hlt]

/-- Helper for C5: when every remaining attempt fails to produce a credible
result, the loop returns the failure sentinel. -/
theorem extractLoop_allFail (env : ExtractEnv) (mr : Nat) :
    ∀ r a, a + r = mr + 1 → 1 ≤ a → 1 ≤ r →
      (∀ b, a ≤ b → b ≤ mr → attemptFails env b = true) →
      extractLoop env mr r a = some extractionFailedHtml := by
  intro r
  induction r with
  | zero => intro a _ _ h1 _; exact absurd h1 (by omega)
  | succ r ih =>
    intro a hsum ha _ hall
    have hfa : attemptFails env a = true := hall a le_rfl (by omega)
    have hcl : env.closed a = false := by
      rcases hb : env.closed a
      · rfl
      · simp [attemptFails, hb] at hfa
    rcases hco : env.content a with _ | v
    · by_cases hlt : a < mr
      · simpa [extractLoop, hcl, hco, hlt] using
          ih (a + 1) (by omega) (by omega) (by omega)
            (fun b hb1 hb2 => hall b (by omega) hb2)
      · simp [extractLoop, hcl, hco, hlt]
    · simp [attemptFails, hcl, hco, Bool.and_eq_true, Bool.not_eq_true'] at hfa
      obtain ⟨hp, hrest⟩ := hfa
      rcases hou : env.outerHTML a with _ | w
      · by_cases hlt : a < mr
        · simpa [extractLoop, hcl, hco, hp, hou, hlt] using
            ih (a + 1) (by omega) (by omega) (by omega)
              (fun b hb1 hb2 => hall b (by omega) hb2)
        · simp [extractLoop, hcl, hco, hp, hou, hlt]
      · rw [hou] at hrest
        simp [Bool.not_eq_true'] at hrest
        by_cases hlt : a < mr
        · simpa [extractLoop, hcl, hco, hp, hou, hrest, hlt] using
            ih (a + 1) (by omega) (by omega) (by omega)
              (fun b hb1 hb2 => hall b (by omega) hb2)
        · simp [extractLoop, hcl, hco, hp, hou, hrest, hlt]

/-- C5: for every page and every `maxRetries ≥ 1`, extraction returns a
string and never raises: a closed page yields the "page closed" placeholder
with no retry, and attempts that all fail yield the "extraction failed"
placeholder, so the job still completes with a success-shaped result. -/
theorem C5_extract_total_degraded :
    ∀ (env : ExtractEnv) (mr : Nat), 1 ≤ mr → extractTotalSpec env mr := by
  intro env mr hmr
  refine ⟨extractLoop_isSome env mr mr 1 (by omega) (by omega),
    fun hcl => ?_, fun hall => ?_⟩
  · obtain ⟨r, rfl⟩ : ∃ r, mr = r + 1 := ⟨mr - 1, by omega⟩
    simp [extractPageContent, extractLoop, hcl]
  · exact extractLoop_allFail env mr mr 1 (by omega) le_rfl (by omega) hall

theorem C5_extract_total_degraded_witness :
    1 ≤ 2 ∧ extractTotalSpec extAllFailEnv 2 :=
  ⟨by decide, C5_extract_total_degraded extAllFailEnv 2 (by decide)⟩

/-- C4: if the page reports itself closed, the detector aborts and returns
`false` without raising (the model is a total function) and without further
polling or scrolling: (1) closed before the scroll means `false` with zero
scrolls; (2) closed at the next poll means the observation loop answers
`closedDuring` at exactly that poll; (3) a `closedDuring` answer of the
observation loop makes the detector return `false`. -/
theorem C4_closed_page_aborts :
    ∀ (env : DetectEnv) (ms tm idle ci t0 fuel lc : Nat) (ss : Option Nat) (t r : Nat),
      (env.closed t0 = true → runDetect env ms tm idle ci t0 = ⟨false, 0⟩) ∧
      (t < t0 + tm → env.closed (t + ci) = true →
        observe env (t0 + tm) idle ci (fuel + 1) lc ss t = .closedDuring (t + ci)) ∧
      (observe env (t0 + tm) idle ci tm (getCount env t0) none t0 = .closedDuring r →
        scrollToBottomAndWaitForStability env ms tm idle ci t0 = false) := by
  intro env ms tm idle ci t0 fuel lc ss t r
  refine ⟨fun h => ?_, fun h1 h2 => ?_, fun h => ?_⟩
  · by_cases hg : 0 < ms ∧ t0 < t0 + tm <;> simp [runDetect, hg, h]
  · simp [observe, h1, h2]
  · by_cases hg : 0 < ms ∧ 0 < tm
    · by_cases hc : env.closed t0
      · simp [scrollToBottomAndWaitForStability, runDetect, hg, hc]
      · by_cases hs : env.scrollThrows t0
        · simp [scrollToBottomAndWaitForStability, runDetect, hg, hc, hs]
        · simp [scrollToBottomAndWaitForStability, runDetect, hg, hc, hs, h]
    · simp [scrollToBottomAndWaitForStability, runDetect, hg]

theorem C4_closed_page_aborts_witness :
    closedEnv.closed 0 = true ∧ ((0 : Nat) < 0 + 10) ∧ closedEnv.closed (0 + 1) = true ∧
    runDetect closedEnv 3 10 2 1 0 = ⟨false, 0⟩ ∧
    observe closedEnv (0 + 10) 2 1 (9 + 1) 5 none 0 = .closedDuring (0 + 1) ∧
    scrollToBottomAndWaitForStability closedEnv 3 10 2 1 0 = false := by
  obtain ⟨a, b, c⟩ := C4_closed_page_aborts closedEnv 3 10 2 1 0 9 5 none 0 1
  exact ⟨rfl, by decide, rfl, a rfl, b (by decide) rfl, c (by decide)⟩

end Scrape

namespace Scrape

/-- Helper for C7: appending the backoff of attempt `a` to the accumulator
and continuing from `a + 1` produces the same delay list as extending the
range by one from `a`. -/
theorem backoff_acc_step (bd a n : Nat) (acc : List Nat) :
    (acc ++ [backoffDelay bd a]) ++
        (List.range n).map (fun i => backoffDelay bd (a + 1 + i)) =
      acc ++ (List.range (n + 1)).map (fun i => backoffDelay bd (a + i)) := by
  have h1 : (fun i => backoffDelay bd (a + i)) ∘ Nat.succ =
      fun i => backoffDelay bd (a + 1 + i) := by
    funext i
    show backoffDelay bd (a + (i + 1)) = backoffDelay bd (a + 1 + i)
    congr 1
    omega
  rw [List.range_succ_eq_map, List.map_cons, List.map_map, h1]
  simp [List.append_assoc]

/-- Helper for C7: a successful `connectLoop` run succeeded at the first
live attempt at or after `a`, within budget, having slept exactly the
backoffs of the failed attempts since `a`. -/
theorem connectLoop_ok_spec (env : Nat → ConnOutcome) (mr bd : Nat) :
    ∀ r a le acc res ds, a + r = mr + 1 → 1 ≤ a →
      connectLoop env mr bd r a le acc = .ok res ds →
      a ≤ res ∧ res ≤ mr ∧ connErrMsg (env res) = none ∧
      (∀ k, a ≤ k → k < res → connErrMsg (env k) ≠ none) ∧
      ds = acc ++ (List.range (res - a)).map (fun i => backoffDelay bd (a + i)) := by
  intro r
  induction r with
  | zero => intro a le acc res ds _ _ h; simp [connectLoop] at h
  | succ r ih =>
    intro a le acc res ds hsum ha h
    rcases hE : connErrMsg (env a) with _ | m
    · simp only [connectLoop, hE, ConnResult.ok.injEq] at h
      obtain ⟨h1, h2⟩ := h
      subst h1
      refine ⟨le_rfl, by omega, hE, fun k hk1 hk2 => absurd hk2 (by omega), ?_⟩
      simp [h2]
    · by_cases hlt : a < mr
      · simp only [connectLoop, hE] at h
        rw [if_pos hlt] at h
        obtain ⟨g1, g2, g3, g4, g5⟩ :=
          ih (a + 1) (some m) (acc ++ [backoffDelay bd a]) res ds (by omega) (by omega) h
        refine ⟨by omega, g2, g3, ?_, ?_⟩
        · intro k hk1 hk2
          by_cases hk : k = a
          · subst hk; simp [hE]
          · exact g4 k (by omega) hk2
        · have hres : res - a = (res - (a + 1)) + 1 := by omega
          rw [g5, backoff_acc_step, ← hres]
      · simp only [connectLoop, hE] at h
        rw [if_neg hlt] at h
        simp at h

/-- Helper for C7: when every attempt from `a` through `maxRetries` fails,
`connectLoop` returns the failure carrying the last attempt's message, having
slept exactly one backoff for each failed attempt except the final one. -/
theorem connectLoop_allFail_spec (env : Nat → ConnOutcome) (mr bd : Nat) :
    ∀ r a le acc, a + r = mr + 1 → 1 ≤ a → 1 ≤ r →
      (∀ k, a ≤ k → k ≤ mr → connErrMsg (env k) ≠ none) →
      connectLoop env mr bd r a le acc =
        .error (connErrMsg (env mr))
          (acc ++ (List.range (mr - a)).map (fun i => backoffDelay bd (a + i))) := by
  intro r
  induction r with
  | zero => intro a le acc _ _ h1 _; exact absurd h1 (by omega)
  | succ r ih =>
    intro a le acc hsum ha _ hall
    have hane : connErrMsg (env a) ≠ none := hall a le_rfl (by omega)
    rcases hE : connErrMsg (env a) with _ | m
    · exact absurd hE hane
    · by_cases hlt : a < mr
      · simp only [connectLoop, hE]
        rw [if_pos hlt,
          ih (a + 1) (some m) (acc ++ [backoffDelay bd a]) (by omega) (by omega)
            (by omega) (fun k hk1 hk2 => hall k (by omega) hk2)]
        have hres : mr - a = (mr - (a + 1)) + 1 := by omega
        rw [backoff_acc_step, ← hres]
      · have hamr : a = mr := by omega
        simp only [connectLoop, hE]
        rw [if_neg hlt]
        subst hamr
        rw [hE]
        simp

/-- C7: `connectWithRetry(maxRetries, baseDelay)` attempts connection at most
`maxRetries` times; after failed attempt `k < maxRetries` it waits exactly
`baseDelay * 2^(k-1)` before the next attempt, with no wait after the final
failed attempt; if all attempts fail it raises an error carrying the last
underlying error's message. -/
theorem C7_connect_backoff :
    ∀ (env : Nat → ConnOutcome) (mr bd : Nat), 1 ≤ mr →
      connOkSpec env mr bd ∧ connFailSpec env mr bd := by
  intro env mr bd hmr
  constructor
  · intro a ds h
    obtain ⟨g1, g2, g3, g4, g5⟩ :=
      connectLoop_ok_spec env mr bd mr 1 none [] a ds (by omega) le_rfl h
    refine ⟨g1, g2, g3, g4, ?_⟩
    rw [g5]
    simp [backoffDelay]
  · intro hall
    rw [connectWithRetry,
      connectLoop_allFail_spec env mr bd mr 1 none [] (by omega) le_rfl hmr hall]
    simp [backoffDelay]

theorem C7_connect_backoff_witness :
    1 ≤ 3 ∧ (connOkSpec connEnvW 3 100 ∧ connFailSpec connEnvW 3 100) :=
  ⟨by decide, C7_connect_backoff connEnvW 3 100 (by decide)⟩

end Scrape

namespace Scrape

/-- C1 counterexample: a job whose session is acquired (first connection
attempt succeeds) and which completes as a normal success, but in which the
browser already reports disconnected when the cleanup code runs: the guarded
cleanup of app.js:340-346 then makes ZERO `browser.disconnect()` calls, so
the session is not "released (disconnected) exactly once" on this outcome. -/
theorem C1_counterexample :
    (runScrape stepsOkEnv cleanupGone inpW).2.acquires = 1 ∧
    (runScrape stepsOkEnv cleanupGone inpW).1 = .ok (some longStr) true ∧
    (runScrape stepsOkEnv cleanupGone inpW).2.disconnectCalls = 0 ∧
    ¬(runScrape stepsOkEnv cleanupGone inpW).2.disconnectCalls = 1 := by
  refine ⟨by decide, by decide, by decide, by decide⟩

/-- C1 (amended): for every job whose session acquisition succeeds, the
session is acquired exactly once; the `page.close()` and
`browser.disconnect()` release calls each happen at most once — exactly once
whenever the resource still reports open/connected when cleanup runs — and a
failure of a release call is caught and never changes the job's response
(the response is independent of the entire cleanup environment). -/
theorem C1_job_resource_cleanup :
    ∀ (s : StepsEnv) (c : CleanupEnv) (inp : JobInput) (a : Nat) (ds : List Nat),
      inp.urlPresent = true → connectWithRetry s.connEnv 3 1000 = .ok a ds →
      jobCleanupSpec s c inp := by
  intro s c inp a ds hurl hconn
  unfold jobCleanupSpec
  refine ⟨?_, ?_, ?_, ?_, ?_, ?_⟩
  · simp [runScrape, hurl, hconn]
  · by_cases h : (runJobBody s inp).2 && !c.pageClosedAtCleanup <;>
      simp [runScrape, hurl, hconn, h]
  · by_cases h : c.connectedAtCleanup <;> simp [runScrape, hurl, hconn, h]
  · intro h; simp [runScrape, hurl, hconn, h]
  · intro h1 h2
    simp [runScrape, hurl, hconn] at h1
    simp [runScrape, hurl, hconn, h1, h2]
  · intro c'; simp [runScrape, hurl, hconn]

theorem C1_job_resource_cleanup_witness :
    inpW.urlPresent = true ∧
    connectWithRetry stepsOkEnv.connEnv 3 1000 = .ok 1 [] ∧
    jobCleanupSpec stepsOkEnv cleanupLive inpW :=
  ⟨rfl, by decide,
    C1_job_resource_cleanup stepsOkEnv cleanupLive inpW 1 [] rfl (by decide)⟩

end Scrape

namespace Scrape

/-- Arithmetic helper: the clock after the sleep of poll `i + 1`. -/
theorem poll_step (t0 i ci : Nat) : t0 + i * ci + ci = t0 + (i + 1) * ci := by
  ring

/-- Arithmetic helper: the distance between two poll times. -/
theorem poll_sub (t0 a b ci : Nat) :
    (t0 + a * ci) - (t0 + b * ci) = (a - b) * ci := by
  rw [Nat.add_sub_add_left]
  exact (Nat.sub_mul a b ci).symm

/-- Helper for C2 (soundness): a `stable` answer of the observation loop,
started at poll `i` with `lastCount` equal to reading `i` and a consistent
`stableStart`, returns at some poll `ks` and exhibits a window `[js..ks]` of
unchanged polls of duration at least `idle`. -/
theorem observe_stable_sound (env : DetectEnv) (endTime idle ci t0 : Nat) :
    ∀ fuel i lc ss r,
      lc = reading env t0 ci i →
      (∀ s, ss = some s → ∃ j, 1 ≤ j ∧ j ≤ i ∧ s = t0 + j * ci ∧
        ∀ m, j ≤ m → m ≤ i → reading env t0 ci m = reading env t0 ci (m - 1)) →
      observe env endTime idle ci fuel lc ss (t0 + i * ci) = .stable r →
      ∃ js ks, 1 ≤ js ∧ js ≤ ks ∧ r = t0 + ks * ci ∧ idle ≤ (ks - js) * ci ∧
        ∀ m, js ≤ m → m ≤ ks → reading env t0 ci m = reading env t0 ci (m - 1) := by
  intro fuel
  induction fuel with
  | zero => intro i lc ss r _ _ h; simp [observe] at h
  | succ fuel ih =>
    intro i lc ss r hlc hss h
    have hstep : t0 + i * ci + ci = t0 + (i + 1) * ci := poll_step t0 i ci
    rcases ss with _ | s
    · simp only [observe] at h
      by_cases ht : t0 + i * ci < endTime
      swap
      · rw [if_neg ht] at h; simp at h
      rw [if_pos ht] at h
      by_cases hcl : env.closed (t0 + i * ci + ci) = true
      · rw [if_pos hcl] at h; simp at h
      rw [if_neg hcl] at h
      by_cases hcur : getCount env (t0 + i * ci + ci) = lc
      · rw [if_pos hcur] at h
        have hunch : reading env t0 ci (i + 1) = lc := by
          rw [reading, ← hstep]; exact hcur
        by_cases hidle : idle ≤ (t0 + i * ci + ci) - (t0 + i * ci + ci)
        · rw [if_pos hidle] at h
          injection h with hr
          refine ⟨i + 1, i + 1, by omega, le_rfl, by rw [← hr]; exact hstep, ?_, ?_⟩
          · simpa using hidle
          · intro m hm1 hm2
            have hm : m = i + 1 := by omega
            subst hm
            have hred : i + 1 - 1 = i := rfl
            rw [hred, hunch, hlc]
        · rw [if_neg hidle] at h
          rw [hstep] at h
          refine ih (i + 1) lc (some (t0 + (i + 1) * ci)) r hunch.symm ?_ h
          intro s hs
          injection hs with hs'
          refine ⟨i + 1, by omega, le_rfl, hs'.symm, ?_⟩
          intro m hm1 hm2
          have hm : m = i + 1 := by omega
          subst hm
          have hred : i + 1 - 1 = i := rfl
          rw [hred, hunch, hlc]
      · rw [if_neg hcur] at h
        rw [hstep] at h
        exact ih (i + 1) _ none r rfl (fun s hs => by simp at hs) h
    · obtain ⟨j, hj1, hj2, hs, hwin⟩ := hss s rfl
      simp only [observe] at h
      by_cases ht : t0 + i * ci < endTime
      swap
      · rw [if_neg ht] at h; simp at h
      rw [if_pos ht] at h
      by_cases hcl : env.closed (t0 + i * ci + ci) = true
      · rw [if_pos hcl] at h; simp at h
      rw [if_neg hcl] at h
      by_cases hcur : getCount env (t0 + i * ci + ci) = lc
      · rw [if_pos hcur] at h
        have hunch : reading env t0 ci (i + 1) = lc := by
          rw [reading, ← hstep]; exact hcur
        by_cases hidle : idle ≤ (t0 + i * ci + ci) - s
        · rw [if_pos hidle] at h
          injection h with hr
          rw [hstep, hs, poll_sub] at hidle
          refine ⟨j, i + 1, hj1, by omega, by rw [← hr]; exact hstep, hidle, ?_⟩
          intro m hm1 hm2
          by_cases hm : m ≤ i
          · exact hwin m hm1 hm
          · have hm' : m = i + 1 := by omega
            subst hm'
            have hred : i + 1 - 1 = i := rfl
            rw [hred, hunch, hlc]
        · rw [if_neg hidle] at h
          rw [hstep] at h
          refine ih (i + 1) lc (some s) r hunch.symm ?_ h
          intro s' hs'
          injection hs' with hseq
          refine ⟨j, hj1, by omega, by rw [← hseq]; exact hs, ?_⟩
          intro m hm1 hm2
          by_cases hm : m ≤ i
          · exact hwin m hm1 hm
          · have hm' : m = i + 1 := by omega
            subst hm'
            have hred : i + 1 - 1 = i := rfl
            rw [hred, hunch, hlc]
      · rw [if_neg hcur] at h
        rw [hstep] at h
        exact ih (i + 1) _ none r rfl (fun s' hs' => by simp at hs') h

end Scrape

namespace Scrape

/-- Helper for C2 (completeness): on a page that never reports closed, if a
full idle window `[js..ks]` of unchanged polls lies inside the overall
deadline, the observation loop answers `stable`.  The invariants carry the
current poll index `i`, the fact that `lastCount` is reading `i`, fuel
adequacy, and — once the window has been entered — that `stableStart` is a
poll at or before `js`. -/
theorem observe_stable_complete (env : DetectEnv) (idle ci t0 tm : Nat)
    (hci : 1 ≤ ci) (hclosed : ∀ u, env.closed u = false) :
    ∀ fuel i lc ss js ks,
      lc = reading env t0 ci i →
      t0 + tm ≤ t0 + i * ci + fuel →
      1 ≤ js → js ≤ ks → i < ks → idle ≤ (ks - js) * ci →
      (∀ m, js ≤ m → m ≤ ks → reading env t0 ci m = reading env t0 ci (m - 1)) →
      (ks - 1) * ci < tm →
      (∀ s, ss = some s → ∃ j0, 1 ≤ j0 ∧ j0 ≤ i ∧ s = t0 + j0 * ci) →
      (js ≤ i → ∃ j0, 1 ≤ j0 ∧ j0 ≤ js ∧ ss = some (t0 + j0 * ci)) →
      ∃ r, observe env (t0 + tm) idle ci fuel lc ss (t0 + i * ci) = .stable r := by
  intro fuel
  induction fuel with
  | zero =>
    intro i lc ss js ks hlc hfuel hjs1 hjks hiks hidle hwin hdl hssP hrun
    have h1 : i * ci ≤ (ks - 1) * ci := Nat.mul_le_mul_right ci (by omega)
    omega
  | succ fuel ih =>
    intro i lc ss js ks hlc hfuel hjs1 hjks hiks hidle hwin hdl hssP hrun
    have hstep : t0 + i * ci + ci = t0 + (i + 1) * ci := poll_step t0 i ci
    have hmul : (i + 1) * ci = i * ci + ci := by ring
    have hibound : i * ci ≤ (ks - 1) * ci := Nat.mul_le_mul_right ci (by omega)
    have ht : t0 + i * ci < t0 + tm := by omega
    rcases hssE : ss with _ | s
    · subst hssE
      have hijs : i < js := by
        by_contra hc
        obtain ⟨j0, _, _, hcontr⟩ := hrun (by omega)
        simp at hcontr
      simp only [observe]
      rw [if_pos ht]
      rw [hclosed (t0 + i * ci + ci)]
      rw [if_neg Bool.false_ne_true]
      by_cases hcur : getCount env (t0 + i * ci + ci) = lc
      · rw [if_pos hcur]
        have hunch : reading env t0 ci (i + 1) = lc := by
          rw [reading, ← hstep]; exact hcur
        by_cases hid0 : idle ≤ (t0 + i * ci + ci) - (t0 + i * ci + ci)
        · rw [if_pos hid0]; exact ⟨_, rfl⟩
        · rw [if_neg hid0]
          rw [hstep]
          have hsub0 : (t0 + i * ci + ci) - (t0 + i * ci + ci) = 0 := Nat.sub_self _
          have hiks' : i + 1 < ks := by
            by_contra hc
            have hksi : ks = i + 1 := by omega
            have hjsi : js = i + 1 := by omega
            have hidle0 : idle ≤ 0 := by
              have h2 := hidle
              rw [hksi, hjsi, Nat.sub_self] at h2
              simpa using h2
            omega
          refine ih (i + 1) lc (some (t0 + (i + 1) * ci)) js ks hunch.symm (by omega)
            hjs1 hjks hiks' hidle hwin hdl ?_ ?_
          · intro s hs
            injection hs with he
            exact ⟨i + 1, by omega, le_rfl, he.symm⟩
          · intro hji
            have hjsi : js = i + 1 := by omega
            exact ⟨i + 1, by omega, by omega, rfl⟩
      · rw [if_neg hcur]
        rw [hstep]
        have hchanged : reading env t0 ci (i + 1) ≠ lc := by
          rw [reading, ← hstep]; exact hcur
        have hijs1 : i + 1 < js := by
          by_contra hc
          have hw := hwin (i + 1) (by omega) (by omega)
          have hred : i + 1 - 1 = i := rfl
          rw [hred] at hw
          exact hchanged (hw.trans hlc.symm)
        exact ih (i + 1) _ none js ks rfl (by omega) hjs1 hjks (by omega) hidle hwin hdl
          (fun s' hs' => by simp at hs') (fun hji => absurd hji (by omega))
    · subst hssE
      obtain ⟨j0, hj01, hj0i, hsEq⟩ := hssP s rfl
      simp only [observe]
      rw [if_pos ht]
      rw [hclosed (t0 + i * ci + ci)]
      rw [if_neg Bool.false_ne_true]
      by_cases hcur : getCount env (t0 + i * ci + ci) = lc
      · rw [if_pos hcur]
        have hunch : reading env t0 ci (i + 1) = lc := by
          rw [reading, ← hstep]; exact hcur
        by_cases hret : idle ≤ (t0 + i * ci + ci) - s
        · rw [if_pos hret]; exact ⟨_, rfl⟩
        · rw [if_neg hret]
          rw [hstep]
          have hsub : (t0 + i * ci + ci) - s = (i + 1 - j0) * ci := by
            rw [hstep, hsEq, poll_sub]
          have hiks' : i + 1 < ks := by
            by_contra hc
            have hksi : ks = i + 1 := by omega
            by_cases hji : js ≤ i
            · obtain ⟨j0', hj0'1, hj0'js, hsEq'⟩ := hrun hji
              injection hsEq' with he
              have hj0eq : j0 = j0' := by
                rw [hsEq] at he
                have hmm : j0 * ci = j0' * ci := by omega
                exact Nat.eq_of_mul_eq_mul_right (by omega) hmm
              have hmono : (ks - js) * ci ≤ (i + 1 - j0) * ci :=
                Nat.mul_le_mul_right ci (by omega)
              omega
            · have hjsi : js = i + 1 := by omega
              have hidle0 : idle ≤ 0 := by
                have h2 := hidle
                rw [hksi, hjsi, Nat.sub_self] at h2
                simpa using h2
              omega
          refine ih (i + 1) lc (some s) js ks hunch.symm (by omega)
            hjs1 hjks hiks' hidle hwin hdl ?_ ?_
          · intro s' hs'
            injection hs' with he
            exact ⟨j0, hj01, by omega, by rw [← he]; exact hsEq⟩
          · intro hji'
            by_cases hji : js ≤ i
            · exact hrun hji
            · exact ⟨j0, hj01, by omega, by rw [hsEq]⟩
      · rw [if_neg hcur]
        rw [hstep]
        have hchanged : reading env t0 ci (i + 1) ≠ lc := by
          rw [reading, ← hstep]; exact hcur
        have hijs1 : i + 1 < js := by
          by_contra hc
          have hw := hwin (i + 1) (by omega) (by omega)
          have hred : i + 1 - 1 = i := rfl
          rw [hred] at hw
          exact hchanged (hw.trans hlc.symm)
        exact ih (i + 1) _ none js ks rfl (by omega) hjs1 hjks (by omega) hidle hwin hdl
          (fun s' hs' => by simp at hs') (fun hji => absurd hji (by omega))

/-- C2: during detection with a positive poll interval, the detector answers
`true` exactly when the growth metric stayed unchanged across consecutive
polls for a continuous duration of at least the idle-stability window:
soundness exhibits the unchanged window behind every `true` answer, and shows
the answer comes no earlier than `idleStableDuration` after every changed
poll (growth and shrink alike reset the window); completeness shows any such
window inside the deadline — on a healthy page — forces a `true` answer. -/
theorem C2_stability_detection :
    ∀ (env : DetectEnv) (ms tm idle ci t0 : Nat), 1 ≤ ci →
      detectSound env ms tm idle ci t0 ∧ detectComplete env ms tm idle ci t0 := by
  intro env ms tm idle ci t0 hci
  have h0 : reading env t0 ci 0 = getCount env t0 := by
    rw [reading]
    congr 1
    ring
  constructor
  · intro h
    unfold scrollToBottomAndWaitForStability runDetect at h
    by_cases hg : 0 < ms ∧ t0 < t0 + tm
    swap
    · rw [if_neg hg] at h; simp at h
    rw [if_pos hg] at h
    by_cases hc : env.closed t0 = true
    · rw [if_pos hc] at h; simp at h
    rw [if_neg hc] at h
    by_cases hsc : env.scrollThrows t0 = true
    · rw [if_pos hsc] at h; simp at h
    rw [if_neg hsc] at h
    rcases hO : observe env (t0 + tm) idle ci tm (getCount env t0) none t0
      with r | r | r
    · have hO' : observe env (t0 + tm) idle ci tm (reading env t0 ci 0) none
          (t0 + 0 * ci) = .stable r := by
        rw [h0]
        have hz : t0 + 0 * ci = t0 := by ring
        rw [hz]
        exact hO
      obtain ⟨js, ks, hjs1, hjks, hr, hidle, hwin⟩ :=
        observe_stable_sound env (t0 + tm) idle ci t0 tm 0 (reading env t0 ci 0)
          none r rfl (fun s hs => by simp at hs) hO'
      refine ⟨js, ks, ⟨hjs1, hjks, hidle, hwin⟩, by rw [← hr], ?_⟩
      intro m hm1 hm2 hne
      have hmjs : m < js := by
        by_contra hcm
        exact hne (hwin m (by omega) hm2)
      have h1 : m + (ks - js) ≤ ks - 1 := by omega
      have h2 : (m + (ks - js)) * ci ≤ (ks - 1) * ci := Nat.mul_le_mul_right ci h1
      have h3 : (ks - 1) * ci ≤ ks * ci := Nat.mul_le_mul_right ci (by omega)
      have h4 : (m + (ks - js)) * ci = m * ci + (ks - js) * ci := by ring
      omega
    · rw [hO] at h; simp at h
    · rw [hO] at h; simp at h
  · intro hclosed hscroll hms js ks hwin hdl
    obtain ⟨hjs1, hjks, hidle, hwinm⟩ := hwin
    have htm : 0 < tm := by omega
    obtain ⟨r, hr⟩ := observe_stable_complete env idle ci t0 tm hci hclosed tm 0
      (reading env t0 ci 0) none js ks rfl
      (by have hz : 0 * ci = 0 := by ring
          omega)
      hjs1 hjks (by omega) hidle hwinm hdl
      (fun s hs => by simp at hs) (fun hji => absurd hji (by omega))
    have hz : t0 + 0 * ci = t0 := by ring
    rw [h0, hz] at hr
    unfold scrollToBottomAndWaitForStability runDetect
    rw [if_pos ⟨by omega, by omega⟩]
    rw [hclosed t0]
    rw [if_neg Bool.false_ne_true]
    rw [hscroll]
    rw [if_neg Bool.false_ne_true]
    rw [hr]

theorem C2_stability_detection_witness :
    1 ≤ 1 ∧ (detectSound stabEnv 1 10 2 1 0 ∧ detectComplete stabEnv 1 10 2 1 0) :=
  ⟨by decide, C2_stability_detection stabEnv 1 10 2 1 0 (by decide)⟩

end Scrape
